import Mathlib

/-!
Verification of the audit-checklist dashboard (`auditoria_app.py`).

The development shallowly embeds the scoring, persistence and
backup/integrity subsystem of the application:

* the three relations (`users`, `checklist_items`, `checklist_results`)
  become Lean structures with the tables modelled as lists of rows;
* the SQLite connection used by the audit-save path is modelled as a pair
  of row lists, `committed` and `pending`: `cur.execute(INSERT ...)`
  appends to `pending`, `conn.commit()` moves `pending` to `committed`,
  and `conn.close()` discards whatever is still pending (the sqlite3 module of Python
  connections open an implicit transaction on INSERT and roll it back
  when closed without commit);
* the backup directory becomes a list of file names plus existence flags,
  with `shutil.copy2` adding a name and `os.remove` deleting one;
* the Python float expression `round((total / max_total) * 100, 2)` is
  modelled over `ℚ` with rounding to two decimals.
-/

namespace Auditoria

/-- A row of the `users` table (`id`, `username`, `password` digest, `rol`). -/
structure User where
  id : Nat
  username : String
  password : String
  rol : String
  deriving DecidableEq, Repr

/-- A row of the `checklist_items` table. -/
structure ChecklistItem where
  id : Nat
  categoria : String
  item : String
  puntaje_max : Int
  deriving DecidableEq, Repr

/-- A row of the `checklist_results` table (ignoring the autoincrement id). -/
structure AuditResult where
  fecha : String
  area : String
  auditor : String
  categoria : String
  item : String
  puntaje : Int
  observacion : String
  deriving DecidableEq, Repr

/-! ### Scoring (`pagina_checklist`, lines 511-578)

`max_total = items["puntaje_max"].sum`, `total` is the sum of the chosen
scores, and
`porcentaje = round((total / max_total) * 100, 2) if max_total > 0 else 0`.
-/

/-- `items["puntaje_max"].sum` of `pagina_checklist`. -/
def max_total (items : List ChecklistItem) : Int :=
  (items.map (·.puntaje_max)).sum

/-- The Python call `round(q, 2)` on the exact rational value: round to the nearest
multiple of 1/100. -/
def round2 (q : ℚ) : ℚ :=
  (round (q * 100) : ℤ) / 100

/-- `porcentaje = round((total / max_total) * 100, 2) if max_total > 0 else 0`
(line 556 of `auditoria_app.py`), on exact rationals. -/
def porcentaje (total maxTotal : Int) : ℚ :=
  if maxTotal > 0 then round2 (((total : ℚ) / (maxTotal : ℚ)) * 100) else 0

/-- The compliance band shown next to the percentage. -/
inductive Banda where
  | excelente
  | aceptable
  | critico
  deriving DecidableEq, Repr

/-- Lines 570-578: `if porcentaje >= 90` → Excelente,
`elif porcentaje >= 70` → Aceptable, else Crítico. -/
def banda (p : ℚ) : Banda :=
  if p ≥ 90 then .excelente
  else if p ≥ 70 then .aceptable
  else .critico

/-! ### Authentication (`hash_pass`, `login_user`, lines 91-104)

`login_user` runs
`SELECT * FROM users WHERE username=? AND password=?` with
`(user, hash_pass(pwd))` and returns `cur.fetchone()`: the first matching
row, or `None`.  The hash function (`hashlib.sha256(...).hexdigest()`) is
an external library call and enters the model as an abstract
`String → String` parameter. -/

/-- `login_user(user, pwd)` over a stored user list: first row whose
`username` equals `user` and whose `password` digest equals
`hash_pass pwd`.  Returns `none` when no row matches; the function is
total, so no input makes it raise. -/
def login_user (hash_pass : String → String) (users : List User)
    (user pwd : String) : Option User :=
  users.find? (fun u => u.username = user && u.password = hash_pass pwd)

/-! ### Checklist catalog CRUD (lines 229-303)

The catalog is the `checklist_items` list; `checklist_results` is carried
alongside so that frame effects on it can be stated. -/

/-- The persistent store: the two tables the audit subsystem touches. -/
structure DB where
  items : List ChecklistItem
  results : List AuditResult
  deriving DecidableEq, Repr

/-- `actualizar_item_checklist(item_id, categoria, item, puntaje_max)`:
`UPDATE checklist_items SET categoria=?, item=?, puntaje_max=? WHERE id=?`,
then `return True, "✅ Cambios guardados"`.  The update touches every row
whose `id` matches (zero rows when the id is absent) and commits. -/
def actualizar_item_checklist (db : DB) (item_id : Nat)
    (categoria item : String) (puntaje_max : Int) : (Bool × String) × DB :=
  ((true, "✅ Cambios guardados"),
   { db with
     items := db.items.map (fun it =>
       if it.id = item_id then
         { it with categoria := categoria, item := item,
                   puntaje_max := puntaje_max }
       else it) })

/-- `eliminar_item_checklist(item_id)`:
`DELETE FROM checklist_items WHERE id=?`, commit, then
`return True, "✅ Ítem eliminado"`.  Only the `checklist_items` table is
named in the statement; `checklist_results` is untouched. -/
def eliminar_item_checklist (db : DB) (item_id : Nat) : (Bool × String) × DB :=
  ((true, "✅ Ítem eliminado"),
   { db with items := db.items.filter (fun it => ¬ it.id = item_id) })

/-! ### Saving an audit (`pagina_checklist`, lines 589-634)

The save path opens a connection, loops
`cur.execute("INSERT INTO checklist_results ...")` over `respuestas`,
calls `conn.commit()` after the loop and `conn.close()` in the `finally`
block.  the sqlite3 module of Python opens an implicit transaction at the first
INSERT and discards it if the connection is closed before `commit()`;
the connection model makes that explicit. -/

/-- One entry of `respuestas`: the catalog row, the chosen score `p`
(offered range `0 .. puntaje_max`), and the observation text. -/
structure Respuesta where
  row : ChecklistItem
  p : Int
  obs : String
  deriving DecidableEq, Repr

/-- The row the loop body inserts: the submitted `fecha`/`area`/`auditor`
plus the denormalized `categoria` and `item` text, the score, and
`obs if obs else ""` (Python: empty string when `obs` is falsy). -/
def resultRow (fecha area auditor : String) (r : Respuesta) : AuditResult :=
  { fecha := fecha, area := area, auditor := auditor,
    categoria := r.row.categoria, item := r.row.item, puntaje := r.p,
    observacion := if r.obs = "" then "" else r.obs }

/-- A live sqlite3 connection to `checklist_results`: the committed table
plus the rows inserted in the still-open implicit transaction. -/
structure Conn where
  committed : List AuditResult
  pending : List AuditResult
  deriving DecidableEq, Repr

/-- `cur.execute("INSERT INTO checklist_results ...", row)`: the row joins
the open transaction. -/
def cur_execute_insert (c : Conn) (r : AuditResult) : Conn :=
  { c with pending := c.pending ++ [r] }

/-- `conn.commit()`: the open transaction becomes durable. -/
def conn_commit (c : Conn) : Conn :=
  { committed := c.committed ++ c.pending, pending := [] }

/-- `conn.close()` in the `finally` block: an uncommitted transaction is
rolled back, leaving only the committed rows on disk. -/
def conn_close (c : Conn) : List AuditResult :=
  c.committed

/-- The per-item insert loop.  `fails` says, row by row, whether that
row `cur.execute` raises `sqlite3.Error` (a missing entry means the
insert succeeds).  On the first failure the loop is abandoned with the
exception propagating: the result flag is `false` and no later row is
executed. -/
def insertarRespuestas : Conn → List AuditResult → List Bool → Bool × Conn
  | c, [], _ => (true, c)
  | c, r :: rs, fails =>
    match fails with
    | true :: _ => (false, c)
    | false :: fs => insertarRespuestas (cur_execute_insert c r) rs fs
    | [] => insertarRespuestas (cur_execute_insert c r) rs []

/-- The whole submission effect on `checklist_results` (lines 589-634):
nothing happens when `area` is empty (validation error); otherwise the
loop runs over `respuestas`, `conn.commit()` runs only if the loop
finished, and `conn.close()` always runs. -/
def guardar_auditoria (db : List AuditResult) (area fecha auditor : String)
    (respuestas : List Respuesta) (fails : List Bool) : List AuditResult :=
  if area = "" then db
  else
    let rows := respuestas.map (resultRow fecha area auditor)
    let step := insertarRespuestas ⟨db, []⟩ rows fails
    conn_close (if step.1 then conn_commit step.2 else step.2)

/-! ### Backups (`hacer_backup_bd`, `verificar_backup_diario`, lines 150-224)

The model keeps the existence of the database file, the existence of the
`backups/` directory, and the list of file names inside that directory. -/

/-- Process-visible filesystem state for the maintenance subsystem. -/
structure FS where
  dbExists : Bool
  dirExists : Bool
  files : List String
  deriving DecidableEq, Repr

/-- The Python method `str.startswith`: the code points of the first argument are a
prefix of those of the second argument. -/
def esPre : List Char → List Char → Bool
  | [], _ => true
  | _ :: _, [] => false
  | c :: cs, d :: ds => c = d && esPre cs ds

/-- The Python method `str.endswith`, by reversal. -/
def esSuf (suf s : List Char) : Bool :=
  esPre suf.reverse s.reverse

/-- Insertion of one element into an ascending list (`x` goes before the
first element it is lexicographically `≤`, the order Python compares
strings by). -/
def insertSorted (x : String) : List String → List String
  | [] => [x]
  | y :: ys => if x.data ≤ y.data then x :: y :: ys else y :: insertSorted x ys

/-- The Python builtin `sorted` on file names: ascending lexicographic order,
realised as insertion sort. -/
def sortFiles : List String → List String
  | [] => []
  | x :: xs => insertSorted x (sortFiles xs)

/-- The backup file-name filter of lines 164 and 867:
`f.startswith("auditoria_backup_")`. -/
def esBackup (f : String) : Bool :=
  esPre "auditoria_backup_".data f.data

/-- `hacer_backup_bd()` (lines 150-178) given the timestamp string
produced by `datetime.now().strftime("%Y%m%d_%H%M%S")`:
if the database file exists, ensure `backups/` exists
(`os.makedirs(..., exist_ok=True)`), copy the database to
`backups/auditoria_backup_<timestamp>.db` (`shutil.copy2` replaces an
existing file of the same name), sort the names starting with
`auditoria_backup_` and delete all but the last 10 when more than 10
remain; returns success.  Without a database file it returns failure and
changes nothing. -/
def hacer_backup_bd (fs : FS) (timestamp : String) : Bool × FS :=
  if fs.dbExists then
    let name := "auditoria_backup_" ++ timestamp ++ ".db"
    let files1 := if name ∈ fs.files then fs.files else fs.files ++ [name]
    let backups := sortFiles (files1.filter esBackup)
    let files2 :=
      if backups.length > 10 then
        files1.filter (fun f => ¬ f ∈ backups.take (backups.length - 10))
      else files1
    (true, { dbExists := fs.dbExists, dirExists := true, files := files2 })
  else (false, fs)

/-- The glob pattern of line 218,
`backups/auditoria_backup_{hoy}_*.db`, as a file-name predicate. -/
def esBackupDe (hoy : String) (f : String) : Bool :=
  esPre ("auditoria_backup_" ++ hoy ++ "_").data f.data && esSuf ".db".data f.data

/-- `verificar_backup_diario()` (lines 210-224) with the wall clock split
into the date `hoy` (`%Y%m%d`) and the time-of-day `tiempo` (`%H%M%S`):
only when `backups/` already exists does it glob for
`auditoria_backup_{hoy}_*.db`; when that glob is empty it calls
`hacer_backup_bd()` and returns `True`, otherwise (including the case
where the directory is missing) it returns `False` without touching the
filesystem. -/
def verificar_backup_diario (fs : FS) (hoy tiempo : String) : Bool × FS :=
  if fs.dirExists then
    if (fs.files.filter (esBackupDe hoy)).isEmpty then
      (true, (hacer_backup_bd fs (hoy ++ "_" ++ tiempo)).2)
    else (false, fs)
  else (false, fs)

/-! ## Helper lemmas -/

/-- A score list bounded item-wise by the catalog sums to a value between
0 and `max_total`. -/
theorem sum_bounds_of_forall₂ {scores : List Int} {items : List ChecklistItem}
    (hb : List.Forall₂ (fun s it => 0 ≤ s ∧ s ≤ it.puntaje_max) scores items) :
    0 ≤ scores.sum ∧ scores.sum ≤ max_total items := by
  induction hb with
  | nil => simp [max_total]
  | cons h _ ih =>
    simp only [List.sum_cons, max_total, List.map_cons] at *
    omega

/-- Rounding to two decimals keeps a value of `[0, 100]` inside `[0, 100]`. -/
theorem round2_mem_Icc {q : ℚ} (h0 : 0 ≤ q) (h1 : q ≤ 100) :
    0 ≤ round2 q ∧ round2 q ≤ 100 := by
  have hlo : (0 : ℤ) ≤ round (q * 100) := by
    rw [round_eq]
    exact Int.floor_nonneg.mpr (by linarith)
  have hhi : round (q * 100) ≤ 10000 := by
    rw [round_eq]
    have hle : (⌊q * 100 + 1 / 2⌋ : ℤ) ≤ ⌊(10000 : ℚ) + 1 / 2⌋ :=
      Int.floor_le_floor (by linarith)
    have hval : (⌊(10000 : ℚ) + 1 / 2⌋ : ℤ) = 10000 := by
      rw [Int.floor_eq_iff]
      norm_num
    omega
  constructor
  · unfold round2
    positivity
  · unfold round2
    rw [div_le_iff₀ (by norm_num)]
    have : (round (q * 100) : ℚ) ≤ 10000 := by exact_mod_cast hhi
    linarith

/-- Inserting into a list permutes consing onto it. -/
theorem insertSorted_perm (x : String) (l : List String) :
    List.Perm (insertSorted x l) (x :: l) := by
  induction l with
  | nil => exact .refl _
  | cons y ys ih =>
    unfold insertSorted
    by_cases h : x.data ≤ y.data
    · rw [if_pos h]
    · rw [if_neg h]
      exact (ih.cons y).trans (List.Perm.swap x y ys)

/-- The Python builtin `sorted` permutes its input. -/
theorem sortFiles_perm (l : List String) : List.Perm (sortFiles l) l := by
  induction l with
  | nil => exact .refl _
  | cons x xs ih => exact (insertSorted_perm x (sortFiles xs)).trans (ih.cons x)

/-- Dropping every element that occurs in the first `k` positions leaves
at most `length - k` elements. -/
theorem length_filter_not_mem_take (M : List String) (k : Nat) :
    (M.filter (fun f => ¬ f ∈ M.take k)).length ≤ M.length - k := by
  have key : ∀ T : List String, T = M.take k →
      (M.filter (fun f => ¬ f ∈ T)).length ≤ M.length - k := by
    intro T hT
    have hsplit : M.filter (fun f => ¬ f ∈ T)
        = (M.take k).filter (fun f => ¬ f ∈ T)
          ++ (M.drop k).filter (fun f => ¬ f ∈ T) := by
      conv_lhs => rw [← List.take_append_drop k M]
      rw [List.filter_append]
    have hnil : (M.take k).filter (fun f => ¬ f ∈ T) = [] :=
      List.filter_eq_nil_iff.mpr (fun a ha => by simp [hT, ha])
    rw [hsplit, hnil, List.nil_append]
    calc ((M.drop k).filter (fun f => ¬ f ∈ T)).length
        ≤ (M.drop k).length := List.length_filter_le _ _
      _ = M.length - k := List.length_drop k M
  exact key (M.take k) rfl

/-! ## Claim theorems -/

/-- C1: for every audit scoring pass, the computed compliance percentage
equals `round(100 * total / maxTotal, 2)` when `maxTotal > 0`, it is `0`
when `maxTotal = 0`, and it lies in `[0, 100]` whenever every score lies
in `[0, item.puntaje_max]`. -/
theorem C1_porcentaje_spec (items : List ChecklistItem) (scores : List Int)
    (hb : List.Forall₂ (fun s it => 0 ≤ s ∧ s ≤ it.puntaje_max) scores items) :
    (0 < max_total items →
      porcentaje scores.sum (max_total items)
        = round2 (100 * (scores.sum : ℚ) / (max_total items : ℚ)))
    ∧ (max_total items = 0 → porcentaje scores.sum (max_total items) = 0)
    ∧ 0 ≤ porcentaje scores.sum (max_total items)
    ∧ porcentaje scores.sum (max_total items) ≤ 100 := by
  obtain ⟨h0, h1⟩ := sum_bounds_of_forall₂ hb
  refine ⟨?_, ?_, ?_⟩
  · intro hm
    unfold porcentaje
    rw [if_pos hm]
    congr 1
    ring
  · intro hm
    unfold porcentaje
    rw [if_neg (by omega)]
  · by_cases hm : 0 < max_total items
    · have hmq : (0 : ℚ) < (max_total items : ℚ) := by exact_mod_cast hm
      have hq0 : (0 : ℚ) ≤ ((scores.sum : ℚ) / (max_total items : ℚ)) * 100 := by
        have : (0 : ℚ) ≤ (scores.sum : ℚ) := by exact_mod_cast h0
        positivity
      have hq1 : ((scores.sum : ℚ) / (max_total items : ℚ)) * 100 ≤ 100 := by
        have hle : (scores.sum : ℚ) ≤ (max_total items : ℚ) := by exact_mod_cast h1
        have : (scores.sum : ℚ) / (max_total items : ℚ) ≤ 1 :=
          (div_le_one hmq).mpr hle
        linarith
      have := round2_mem_Icc hq0 hq1
      unfold porcentaje
      rw [if_pos hm]
      exact this
    · unfold porcentaje
      rw [if_neg hm]
      norm_num

/-- C1 witness: a two-item catalog with in-range scores. -/
theorem C1_porcentaje_spec_witness :
    List.Forall₂ (fun (s : Int) it => 0 ≤ s ∧ s ≤ it.puntaje_max)
      [3, 10]
      [ChecklistItem.mk 1 "Seguridad" "Extintores" 5,
       ChecklistItem.mk 2 "Calidad" "Registros" 10]
    ∧ 0 ≤ porcentaje ([3, 10] : List Int).sum
        (max_total
          [ChecklistItem.mk 1 "Seguridad" "Extintores" 5,
           ChecklistItem.mk 2 "Calidad" "Registros" 10]) := by
  have hb : List.Forall₂ (fun (s : Int) it => 0 ≤ s ∧ s ≤ it.puntaje_max)
      [3, 10]
      [ChecklistItem.mk 1 "Seguridad" "Extintores" 5,
       ChecklistItem.mk 2 "Calidad" "Registros" 10] :=
    .cons (by norm_num) (.cons (by norm_num) .nil)
  exact ⟨hb, (C1_porcentaje_spec _ _ hb).2.2.1⟩

/-- C2: the compliance band is Excelente exactly when the percentage is
at least 90, Aceptable exactly when it is in `[70, 90)`, Crítico exactly
when it is below 70, and the boundary values 90, 89.99, 70, 69.99 land in
the bands the spec names. -/
theorem C2_banda_spec (p : ℚ) :
    (banda p = Banda.excelente ↔ 90 ≤ p)
    ∧ (banda p = Banda.aceptable ↔ 70 ≤ p ∧ p < 90)
    ∧ (banda p = Banda.critico ↔ p < 70)
    ∧ banda 90 = Banda.excelente
    ∧ banda (8999 / 100) = Banda.aceptable
    ∧ banda 70 = Banda.aceptable
    ∧ banda (6999 / 100) = Banda.critico := by
  refine ⟨?_, ?_, ?_, ?_, ?_, ?_, ?_⟩
  · unfold banda
    split_ifs with h1 h2
    · exact ⟨fun _ => h1, fun _ => rfl⟩
    · exact ⟨fun h => absurd h (by decide), fun h => absurd h h1⟩
    · exact ⟨fun h => absurd h (by decide), fun h => absurd h h1⟩
  · unfold banda
    split_ifs with h1 h2
    · exact ⟨fun h => absurd h (by decide), fun h => absurd h.2 (not_lt.mpr h1)⟩
    · exact ⟨fun _ => ⟨h2, lt_of_not_ge h1⟩, fun _ => rfl⟩
    · exact ⟨fun h => absurd h (by decide), fun h => absurd h.1 h2⟩
  · unfold banda
    split_ifs with h1 h2
    · exact ⟨fun h => absurd h (by decide),
        fun h => absurd h (not_lt.mpr (by linarith))⟩
    · exact ⟨fun h => absurd h (by decide), fun h => absurd h (not_lt.mpr h2)⟩
    · exact ⟨fun _ => lt_of_not_ge h2, fun _ => rfl⟩
  · norm_num [banda]
  · norm_num [banda]
  · norm_num [banda]
  · norm_num [banda]

/-- When no insert raises, the loop reports success and the open
transaction holds exactly the inserted rows, in order. -/
theorem insertarRespuestas_ok (rows : List AuditResult) :
    ∀ (c : Conn) (fails : List Bool), (∀ b ∈ fails, b = false) →
      insertarRespuestas c rows fails
        = (true, ⟨c.committed, c.pending ++ rows⟩) := by
  induction rows with
  | nil =>
    intro c fails _
    simp [insertarRespuestas]
  | cons r rs ih =>
    intro c fails h
    match fails with
    | [] =>
      rw [show insertarRespuestas c (r :: rs) []
            = insertarRespuestas (cur_execute_insert c r) rs [] from rfl]
      rw [ih (cur_execute_insert c r) [] (by simp)]
      simp [cur_execute_insert]
    | true :: fs =>
      exact absurd (h true (by simp)) (by simp)
    | false :: fs =>
      rw [show insertarRespuestas c (r :: rs) (false :: fs)
            = insertarRespuestas (cur_execute_insert c r) rs fs from rfl]
      rw [ih (cur_execute_insert c r) fs (fun b hb => h b (by simp [hb]))]
      simp [cur_execute_insert]

/-- The loop never touches the committed table: only `conn.commit()`
does. -/
theorem insertarRespuestas_committed (rows : List AuditResult) :
    ∀ (c : Conn) (fails : List Bool),
      ((insertarRespuestas c rows fails).2).committed = c.committed := by
  induction rows with
  | nil =>
    intro c fails
    rfl
  | cons r rs ih =>
    intro c fails
    match fails with
    | [] => exact ih (cur_execute_insert c r) []
    | true :: fs => rfl
    | false :: fs => exact ih (cur_execute_insert c r) fs

/-- C3: a successful submission (non-empty area, no insert failure) over
`N` response rows appends exactly `N` new `checklist_results` rows, one
per catalog item, each carrying the submitted area, date and auditor
together with the denormalized category and text of the item. -/
theorem C3_submission_rows (db : List AuditResult)
    (area fecha auditor : String) (respuestas : List Respuesta)
    (fails : List Bool) (harea : area ≠ "")
    (hok : ∀ b ∈ fails, b = false) :
    guardar_auditoria db area fecha auditor respuestas fails
        = db ++ respuestas.map (resultRow fecha area auditor)
    ∧ (guardar_auditoria db area fecha auditor respuestas fails).length
        = db.length + respuestas.length
    ∧ ∀ r ∈ respuestas,
        (resultRow fecha area auditor r).area = area
        ∧ (resultRow fecha area auditor r).fecha = fecha
        ∧ (resultRow fecha area auditor r).auditor = auditor
        ∧ (resultRow fecha area auditor r).categoria = r.row.categoria
        ∧ (resultRow fecha area auditor r).item = r.row.item := by
  have hmain : guardar_auditoria db area fecha auditor respuestas fails
      = db ++ respuestas.map (resultRow fecha area auditor) := by
    unfold guardar_auditoria
    rw [if_neg harea]
    simp only [insertarRespuestas_ok _ ⟨db, []⟩ fails hok, conn_close,
      conn_commit, if_true]
    simp
  refine ⟨hmain, ?_, ?_⟩
  · rw [hmain]
    simp
  · intro r _
    exact ⟨rfl, rfl, rfl, rfl, rfl⟩

/-- C3 witness: one catalog item, explicit area, no failures. -/
theorem C3_submission_rows_witness :
    ("Producción" : String) ≠ ""
    ∧ guardar_auditoria [] "Producción" "2025-01-15" "auditor"
        [Respuesta.mk (ChecklistItem.mk 1 "Seguridad" "Extintores" 5) 4 "ok"]
        []
      = [resultRow "2025-01-15" "Producción" "auditor"
          (Respuesta.mk (ChecklistItem.mk 1 "Seguridad" "Extintores" 5) 4 "ok")] := by
  have harea : ("Producción" : String) ≠ "" := by decide
  exact ⟨harea,
    (C3_submission_rows [] "Producción" "2025-01-15" "auditor"
      [Respuesta.mk (ChecklistItem.mk 1 "Seguridad" "Extintores" 5) 4 "ok"]
      [] harea (by simp)).1⟩

/-- C4 counterexample: with two response rows where the second insert
raises, the loop stops with the first row already executed into the open
transaction — yet the results table ends empty: the already-inserted row
does not remain persisted, because `conn.commit()` is only reached after
the whole loop and `conn.close()` rolls the implicit transaction back. -/
theorem C4_counterexample :
    (insertarRespuestas ⟨[], []⟩
        ([Respuesta.mk (ChecklistItem.mk 1 "Seguridad" "Extintores" 5) 3 "",
          Respuesta.mk (ChecklistItem.mk 2 "Calidad" "Registros" 5) 4 ""].map
          (resultRow "2025-01-15" "Producción" "auditor"))
        [false, true]).1 = false
    ∧ ((insertarRespuestas ⟨[], []⟩
        ([Respuesta.mk (ChecklistItem.mk 1 "Seguridad" "Extintores" 5) 3 "",
          Respuesta.mk (ChecklistItem.mk 2 "Calidad" "Registros" 5) 4 ""].map
          (resultRow "2025-01-15" "Producción" "auditor"))
        [false, true]).2).pending
      = [resultRow "2025-01-15" "Producción" "auditor"
          (Respuesta.mk (ChecklistItem.mk 1 "Seguridad" "Extintores" 5) 3 "")]
    ∧ guardar_auditoria [] "Producción" "2025-01-15" "auditor"
        [Respuesta.mk (ChecklistItem.mk 1 "Seguridad" "Extintores" 5) 3 "",
         Respuesta.mk (ChecklistItem.mk 2 "Calidad" "Registros" 5) 4 ""]
        [false, true] = []
    ∧ ¬ resultRow "2025-01-15" "Producción" "auditor"
          (Respuesta.mk (ChecklistItem.mk 1 "Seguridad" "Extintores" 5) 3 "")
        ∈ guardar_auditoria [] "Producción" "2025-01-15" "auditor"
            [Respuesta.mk (ChecklistItem.mk 1 "Seguridad" "Extintores" 5) 3 "",
             Respuesta.mk (ChecklistItem.mk 2 "Calidad" "Registros" 5) 4 ""]
            [false, true] := by
  refine ⟨rfl, rfl, rfl, ?_⟩
  decide

/-- C4 amended: when some row insert raises partway through the loop, the
final commit is never reached, the connection closes with the transaction
open, and the results table is left exactly as before the submission —
no row of the batch persists. -/
theorem C4_failed_submission_rolls_back (db : List AuditResult)
    (area fecha auditor : String) (respuestas : List Respuesta)
    (fails : List Bool)
    (hfail : (insertarRespuestas ⟨db, []⟩
        (respuestas.map (resultRow fecha area auditor)) fails).1 = false) :
    guardar_auditoria db area fecha auditor respuestas fails = db := by
  by_cases ha : area = ""
  · simp [guardar_auditoria, ha]
  · unfold guardar_auditoria
    rw [if_neg ha]
    simp only [hfail, Bool.false_eq_true, if_false, conn_close]
    exact insertarRespuestas_committed _ _ _

/-- C4 witness: the amended theorem at the input of the counterexample. -/
theorem C4_failed_submission_rolls_back_witness :
    (insertarRespuestas ⟨[], []⟩
        ([Respuesta.mk (ChecklistItem.mk 3 "Orden" "Pasillos" 5) 3 "",
          Respuesta.mk (ChecklistItem.mk 4 "Orden" "Bodega" 5) 4 ""].map
          (resultRow "2025-02-01" "Almacén" "auditor")) [false, true]).1
      = false
    ∧ guardar_auditoria [] "Almacén" "2025-02-01" "auditor"
        [Respuesta.mk (ChecklistItem.mk 3 "Orden" "Pasillos" 5) 3 "",
         Respuesta.mk (ChecklistItem.mk 4 "Orden" "Bodega" 5) 4 ""]
        [false, true] = [] :=
  ⟨rfl,
   C4_failed_submission_rolls_back [] "Almacén" "2025-02-01" "auditor"
     [Respuesta.mk (ChecklistItem.mk 3 "Orden" "Pasillos" 5) 3 "",
      Respuesta.mk (ChecklistItem.mk 4 "Orden" "Bodega" 5) 4 ""]
     [false, true] rfl⟩

/-- C7: deleting any catalog item leaves the `checklist_results` table
exactly as it was — no row is altered or removed, so rows recorded
against the deleted item keep their denormalized category and text. -/
theorem C7_eliminar_frame (db : DB) (item_id : Nat) :
    ((eliminar_item_checklist db item_id).2).results = db.results := rfl

/-- C8: with usernames unique (the `UNIQUE` store constraint),
`login_user` returns a stored user exactly when the username of that user is
the given one and their stored digest is the hash of the given password;
it returns `none` exactly when no stored user matches.  The function is
total, so no input raises. -/
theorem C8_login_spec (hash_pass : String → String) (users : List User)
    (user pwd : String) (hnd : (users.map (·.username)).Nodup) :
    (∀ u : User,
      login_user hash_pass users user pwd = some u
        ↔ u ∈ users ∧ u.username = user ∧ u.password = hash_pass pwd)
    ∧ (login_user hash_pass users user pwd = none
        ↔ ∀ u ∈ users, ¬ (u.username = user ∧ u.password = hash_pass pwd)) := by
  constructor
  · intro u
    constructor
    · intro hfind
      have hmem := List.mem_of_find?_eq_some hfind
      have hpred := List.find?_some hfind
      simp only [Bool.and_eq_true, decide_eq_true_eq] at hpred
      exact ⟨hmem, hpred.1, hpred.2⟩
    · rintro ⟨hmem, hname, hpass⟩
      obtain ⟨v, hv⟩ : ∃ v, login_user hash_pass users user pwd = some v := by
        rcases hopt : login_user hash_pass users user pwd with _ | v
        · exfalso
          have := List.find?_eq_none.mp hopt u hmem
          simp [hname, hpass] at this
        · exact ⟨v, rfl⟩
      have hvmem := List.mem_of_find?_eq_some hv
      have hvpred := List.find?_some hv
      simp only [Bool.and_eq_true, decide_eq_true_eq] at hvpred
      have : v = u :=
        List.inj_on_of_nodup_map hnd hvmem hmem
          (by simp [hvpred.1, hname])
      rw [hv, this]
  · rw [show login_user hash_pass users user pwd
        = users.find? (fun u =>
            u.username = user && u.password = hash_pass pwd) from rfl]
    rw [List.find?_eq_none]
    constructor
    · intro h u hu hcon
      have := h u hu
      simp [hcon.1, hcon.2] at this
    · intro h u hu
      have := h u hu
      simp only [Bool.and_eq_true, decide_eq_true_eq]
      tauto

/-- C8 witness: a two-user store, an exact match and a wrong password. -/
theorem C8_login_spec_witness :
    (([User.mk 1 "admin" "h:admin123" "admin",
       User.mk 2 "auditor" "h:auditor123" "auditor"].map
        (·.username)).Nodup)
    ∧ login_user (fun s => "h:" ++ s)
        [User.mk 1 "admin" "h:admin123" "admin",
         User.mk 2 "auditor" "h:auditor123" "auditor"] "admin" "admin123"
      = some (User.mk 1 "admin" "h:admin123" "admin") := by
  have hnd : (([User.mk 1 "admin" "h:admin123" "admin",
       User.mk 2 "auditor" "h:auditor123" "auditor"].map
        (·.username)).Nodup) := by decide
  refine ⟨hnd, ?_⟩
  exact ((C8_login_spec (fun s => "h:" ++ s)
    [User.mk 1 "admin" "h:admin123" "admin",
     User.mk 2 "auditor" "h:auditor123" "auditor"] "admin" "admin123"
    hnd).1 (User.mk 1 "admin" "h:admin123" "admin")).mpr
    ⟨by simp, rfl, rfl⟩

/-- C9: for an id no catalog row carries, `actualizar_item_checklist` and
`eliminar_item_checklist` both report success with their fixed success
message, and the store is unchanged. -/
theorem C9_missing_id_success (db : DB) (item_id : Nat)
    (categoria item : String) (puntaje_max : Int)
    (h : ∀ it ∈ db.items, it.id ≠ item_id) :
    actualizar_item_checklist db item_id categoria item puntaje_max
        = ((true, "✅ Cambios guardados"), db)
    ∧ eliminar_item_checklist db item_id = ((true, "✅ Ítem eliminado"), db) := by
  constructor
  · unfold actualizar_item_checklist
    have hmap : db.items.map (fun it =>
        if it.id = item_id then
          { it with categoria := categoria, item := item,
                    puntaje_max := puntaje_max }
        else it) = db.items := by
      rw [show db.items = db.items.map id from (List.map_id db.items).symm]
      rw [List.map_map]
      refine List.map_congr_left ?_
      intro a ha
      simp [h a ha]
    rw [hmap]
  · unfold eliminar_item_checklist
    have hfil : db.items.filter (fun it => ¬ it.id = item_id) = db.items :=
      List.filter_eq_self.mpr (fun a ha => by simp [h a ha])
    rw [hfil]

/-- C9 witness: a one-item catalog and an absent id. -/
theorem C9_missing_id_success_witness :
    (∀ it ∈ (DB.mk [ChecklistItem.mk 1 "Seguridad" "Extintores" 5] []).items,
      it.id ≠ 2)
    ∧ eliminar_item_checklist
        (DB.mk [ChecklistItem.mk 1 "Seguridad" "Extintores" 5] []) 2
        = ((true, "✅ Ítem eliminado"),
           DB.mk [ChecklistItem.mk 1 "Seguridad" "Extintores" 5] []) := by
  have h : ∀ it ∈ (DB.mk [ChecklistItem.mk 1 "Seguridad" "Extintores" 5] []).items,
      it.id ≠ 2 := by decide
  exact ⟨h, (C9_missing_id_success _ 2 "x" "y" 1 h).2⟩

/-- C5 (code bug): at a fresh install — database file present, `backups/`
directory not yet created, so no backup exists for the day — two
same-day calls of `verificar_backup_diario` both return `False` and
create nothing: afterwards there is still no backup file carrying the
date prefix of the day, although the docstring of the function and the spec promise
that the first call creates one. -/
theorem C5_fresh_install_no_daily_backup :
    ((FS.mk true false []).files.filter (esBackupDe "20250101")).length = 0
    ∧ verificar_backup_diario (FS.mk true false []) "20250101" "090000"
        = (false, FS.mk true false [])
    ∧ verificar_backup_diario
        ((verificar_backup_diario (FS.mk true false []) "20250101" "090000").2)
        "20250101" "103000"
        = (false, FS.mk true false [])
    ∧ (((verificar_backup_diario
          ((verificar_backup_diario (FS.mk true false []) "20250101" "090000").2)
          "20250101" "103000").2).files.filter (esBackupDe "20250101")).length
        = 0 :=
  ⟨rfl, rfl, rfl, rfl⟩

/-- C6: a completed manual backup always leaves at most 10 files with the
backup prefix, and 11 sequential manual backups from an empty state leave
exactly the 10 most recent backup files, the oldest one removed. -/
theorem C6_backup_rotation (fs : FS) (timestamp : String)
    (hdb : fs.dbExists = true) :
    (((hacer_backup_bd fs timestamp).2).files.filter esBackup).length ≤ 10
    ∧ (["20250101_000000", "20250102_000000", "20250103_000000",
        "20250104_000000", "20250105_000000", "20250106_000000",
        "20250107_000000", "20250108_000000", "20250109_000000",
        "20250110_000000", "20250111_000000"].foldl
          (fun s t => (hacer_backup_bd s t).2) (FS.mk true false [])).files
      = ["20250102_000000", "20250103_000000",
         "20250104_000000", "20250105_000000", "20250106_000000",
         "20250107_000000", "20250108_000000", "20250109_000000",
         "20250110_000000", "20250111_000000"].map
          (fun t => "auditoria_backup_" ++ t ++ ".db") := by
  constructor
  · unfold hacer_backup_bd
    rw [if_pos hdb]
    dsimp only
    set files1 := if ("auditoria_backup_" ++ timestamp ++ ".db") ∈ fs.files
        then fs.files
        else fs.files ++ ["auditoria_backup_" ++ timestamp ++ ".db"]
      with hfiles1
    set M := sortFiles (files1.filter esBackup) with hM
    have hperm : List.Perm M (files1.filter esBackup) := by
      rw [hM]
      exact sortFiles_perm _
    split
    next hgt =>
      rw [List.filter_comm]
      have hlen := (List.Perm.filter
        (fun g => ¬ g ∈ M.take (M.length - 10)) hperm).length_eq
      rw [← hlen]
      have h2 := length_filter_not_mem_take M (M.length - 10)
      omega
    next hgt =>
      have h3 : (files1.filter esBackup).length = M.length := hperm.length_eq.symm
      omega
  · set_option maxRecDepth 100000 in decide

/-- C6 witness: a single backup on a filesystem holding the database and
an empty backup directory. -/
theorem C6_backup_rotation_witness :
    (FS.mk true true []).dbExists = true
    ∧ (((hacer_backup_bd (FS.mk true true []) "20250101_000000").2).files.filter
        esBackup).length ≤ 10 :=
  ⟨rfl, (C6_backup_rotation (FS.mk true true []) "20250101_000000" rfl).1⟩

/-- C10: backup runs (including their pruning step) never delete a file
in the backup directory whose name lacks the `auditoria_backup_` prefix:
any such file still present before a backup is still present after it. -/
theorem C10_backup_preserves_foreign_files (fs : FS) (timestamp f : String)
    (hf : f ∈ fs.files) (hnb : esBackup f = false) :
    f ∈ ((hacer_backup_bd fs timestamp).2).files := by
  unfold hacer_backup_bd
  split
  · dsimp only
    set files1 := if ("auditoria_backup_" ++ timestamp ++ ".db") ∈ fs.files
        then fs.files
        else fs.files ++ ["auditoria_backup_" ++ timestamp ++ ".db"]
      with hfiles1
    have hf1 : f ∈ files1 := by
      rw [hfiles1]
      split
      · exact hf
      · exact List.mem_append_left _ hf
    set M := sortFiles (files1.filter esBackup) with hM
    split
    · refine List.mem_filter.mpr ⟨hf1, ?_⟩
      simp only [decide_eq_true_eq]
      intro hT
      have hfM : f ∈ M := List.mem_of_mem_take hT
      rw [hM] at hfM
      have hfil : f ∈ files1.filter esBackup :=
        (sortFiles_perm _).mem_iff.mp hfM
      have htrue := List.of_mem_filter hfil
      rw [hnb] at htrue
      exact absurd htrue (by decide)
    · exact hf1
  · exact hf

/-- C10 witness: a foreign file survives a backup that triggers pruning. -/
theorem C10_backup_preserves_foreign_files_witness :
    "notas.txt" ∈ (FS.mk true true
        ["notas.txt", "auditoria_backup_20250101_000000.db"]).files
    ∧ esBackup "notas.txt" = false
    ∧ "notas.txt" ∈ ((hacer_backup_bd
        (FS.mk true true
          ["notas.txt", "auditoria_backup_20250101_000000.db"])
        "20250102_000000").2).files := by
  refine ⟨by decide, by decide, ?_⟩
  exact C10_backup_preserves_foreign_files
    (FS.mk true true ["notas.txt", "auditoria_backup_20250101_000000.db"])
    "20250102_000000" "notas.txt" (by decide) (by decide)

end Auditoria
